import Mathlib

/-!
The libjaylink driver: the public interface of `libjaylink.h`

A shallow embedding of the constants of `libjaylink/libjaylink.h` (error codes,
capability identifiers, target interfaces, buffer sizes, the adaptive-clocking
speed sentinel) and of the operations the header declares.  The header only
declares the functions; their bodies are modelled from the specification and are
marked as such.
-/

namespace Jaylink

/-! ## `enum jaylink_error` -/

/-- No error. -/
def JAYLINK_OK : Int := 0
/-- Unspecific error. -/
def JAYLINK_ERR : Int := -1
/-- Memory allocation error. -/
def JAYLINK_ERR_MALLOC : Int := -2
/-- Invalid argument. -/
def JAYLINK_ERR_ARG : Int := -3
/-- Timeout occurred. -/
def JAYLINK_ERR_TIMEOUT : Int := -4

/-- The enumerators of `enum jaylink_error`, in declaration order. -/
def jaylink_error : List Int :=
  [JAYLINK_OK, JAYLINK_ERR, JAYLINK_ERR_MALLOC, JAYLINK_ERR_ARG, JAYLINK_ERR_TIMEOUT]

/-- The enumerators of `enum jaylink_error` that denote an error, that is all of
them except `JAYLINK_OK` ("No error."). -/
def jaylink_error_kinds : List Int :=
  [JAYLINK_ERR, JAYLINK_ERR_MALLOC, JAYLINK_ERR_ARG, JAYLINK_ERR_TIMEOUT]

/-! ## `enum jaylink_device_capability` -/

/-- Device supports retrieval of the hardware version. -/
def JAYLINK_DEV_CAP_GET_HW_VERSION : Nat := 1
/-- Device supports adaptive clocking. -/
def JAYLINK_DEV_CAP_ADAPTIVE_CLOCKING : Nat := 3
/-- Device supports reading configuration data. -/
def JAYLINK_DEV_CAP_READ_CONFIG : Nat := 4
/-- Device supports writing configuration data. -/
def JAYLINK_DEV_CAP_WRITE_CONFIG : Nat := 5
/-- Device supports retrieval of free memory size. -/
def JAYLINK_DEV_CAP_GET_FREE_MEMORY : Nat := 11
/-- Device supports the setting of the target power supply. -/
def JAYLINK_DEV_CAP_SET_TARGET_POWER : Nat := 13
/-- Device supports target interface selection. -/
def JAYLINK_DEV_CAP_SELECT_TIF : Nat := 17
/-- Device supports retrieval of extended capabilities. -/
def JAYLINK_DEV_CAP_GET_EXT_CAPS : Nat := 31

/-- The enumerators of `enum jaylink_device_capability`, in declaration order. -/
def jaylink_device_capability : List Nat :=
  [JAYLINK_DEV_CAP_GET_HW_VERSION, JAYLINK_DEV_CAP_ADAPTIVE_CLOCKING,
   JAYLINK_DEV_CAP_READ_CONFIG, JAYLINK_DEV_CAP_WRITE_CONFIG,
   JAYLINK_DEV_CAP_GET_FREE_MEMORY, JAYLINK_DEV_CAP_SET_TARGET_POWER,
   JAYLINK_DEV_CAP_SELECT_TIF, JAYLINK_DEV_CAP_GET_EXT_CAPS]

/-! ## `enum jaylink_target_interface` -/

/-- Joint Test Action Group, IEEE 1149.1 (JTAG). -/
def JAYLINK_TIF_JTAG : Nat := 0
/-- Serial Wire Debug (SWD). -/
def JAYLINK_TIF_SWD : Nat := 1
/-- Background Debug Mode 3 (BDM3). -/
def JAYLINK_TIF_BDM3 : Nat := 2
/-- Renesas single-wire debug interface (FINE). -/
def JAYLINK_TIF_FINE : Nat := 3
/-- 2-wire JTAG for PIC32 compliant devices. -/
def JAYLINK_TIF_2W_JTAG_PIC32 : Nat := 4
/-- Helper which must be always the last element: it has no initialiser, so C
gives it the value of the preceding enumerator plus one. -/
def __JAYLINK_TIF_MAX : Nat := JAYLINK_TIF_2W_JTAG_PIC32 + 1

/-- Maximum valid target interface number:
`#define JAYLINK_TIF_MAX (__JAYLINK_TIF_MAX - 1)`. -/
def JAYLINK_TIF_MAX : Nat := __JAYLINK_TIF_MAX - 1

/-- The target interfaces of `enum jaylink_target_interface`, in declaration
order; the trailing helper `__JAYLINK_TIF_MAX` is not an interface. -/
def jaylink_target_interface : List Nat :=
  [JAYLINK_TIF_JTAG, JAYLINK_TIF_SWD, JAYLINK_TIF_BDM3, JAYLINK_TIF_FINE,
   JAYLINK_TIF_2W_JTAG_PIC32]

/-! ## Sizes and the speed sentinel -/

/-- Target interface speed value for adaptive clocking. -/
def JAYLINK_SPEED_ADAPTIVE_CLOCKING : Nat := 0xffff
/-- Size of the device configuration data in bytes. -/
def JAYLINK_DEV_CONFIG_SIZE : Nat := 256
/-- Number of bytes required to store device capabilities. -/
def JAYLINK_DEV_CAPS_SIZE : Nat := 4
/-- Number of bytes required to store extended device capabilities. -/
def JAYLINK_DEV_EXT_CAPS_SIZE : Nat := 32

/-- The number of values of a `uint16_t`, the type of the `speed` parameter of
`jaylink_set_speed`. -/
def UINT16_RANGE : Nat := 2 ^ 16

/-! ## Capability query helper: `jaylink_has_cap` -/

/-- Modelled from the spec: the body of `jaylink_has_cap`, which the header only
declares (`int jaylink_has_cap(const uint8_t *caps, uint32_t cap)`).  The mask is
the list of its bytes, so its bit width is `8 * caps.length`.  The result is
`none` when a byte outside the buffer is read (an out-of-range access), and
`some b` when the test answers `b`.  Following the spec, `has(mask, id)` is a
pure bit test (bit `n` set means capability `n`) and an `id` at or beyond the
mask's bit width gives `false`, not an error. -/
def jaylink_has_cap_read (caps : List Nat) (cap : Nat) : Option Bool :=
  if cap < 8 * caps.length then
    (caps.get? (cap / 8)).map (fun byte => (byte / 2 ^ (cap % 8)) % 2 == 1)
  else
    some false

/-- Modelled from the spec: `has(capabilities_bitmask, capability_id) -> bool`,
the answer of `jaylink_has_cap` (declared only in the header). -/
def jaylink_has_cap (caps : List Nat) (cap : Nat) : Bool :=
  jaylink_has_cap_read caps cap == some true

/-! ## Transport, command codec and device session -/

/-- Modelled from the spec: the failures of a transport transfer
(`fails(Timeout, IOError, ShortTransfer)`); the transport is not part of the
header. -/
inductive TransportError where
  | Timeout
  | IOError
  | ShortTransfer
  deriving DecidableEq, Repr

/-- Modelled from the spec: the transport, `transfer(connection, out_bytes,
expected_in_len, timeout) -> in_bytes | fails(...)`, taken as a parameter. -/
structure Transport where
  transfer : List Nat → Nat → Except TransportError (List Nat)

/-- Modelled from the spec: the command codec, which maps a logical request to
its wire buffer and the expected response length.  The opcodes and field layout
are not in the header, so the two encoders are taken as parameters. -/
structure CommandCodec where
  set_speed : Nat → List Nat × Nat
  select_tif : Nat → List Nat × Nat

/-- Modelled from the spec: the device session behind the opaque
`struct jaylink_device_handle`: the snapshot of base capabilities, the bitmask
of the interfaces the device reported as available, the selected target
interface (`none` is "unknown"), and the count of transport calls issued. -/
structure jaylink_device_handle where
  caps : List Nat
  interfaces : Nat
  selected : Option Nat
  calls : Nat
  deriving DecidableEq, Repr

/-- Modelled from the spec: the error code a transport failure surfaces as
(timeout, or the generic failure for anything else). -/
def transport_error_code : TransportError → Int
  | .Timeout => JAYLINK_ERR_TIMEOUT
  | .IOError => JAYLINK_ERR
  | .ShortTransfer => JAYLINK_ERR

/-- Modelled from the spec: one command/response round trip on the session's
transport; every round trip is counted in `calls`. -/
def transport_call (t : Transport) (devh : jaylink_device_handle) (req : List Nat × Nat) :
    Except TransportError (List Nat) × jaylink_device_handle :=
  (t.transfer req.1 req.2, { devh with calls := devh.calls + 1 })

/-- Modelled from the spec: the body of `jaylink_set_speed`, which the header
only declares.  The speed is validated against `[1, 0xfffe]` or the sentinel
`0xffff`, which requires the adaptive-clocking capability; anything else is an
invalid argument, surfaced before any I/O. -/
def jaylink_set_speed (c : CommandCodec) (t : Transport) (devh : jaylink_device_handle)
    (speed : Nat) : Int × jaylink_device_handle :=
  if (1 ≤ speed ∧ speed ≤ 0xfffe) ∨
      (speed = JAYLINK_SPEED_ADAPTIVE_CLOCKING ∧
        jaylink_has_cap devh.caps JAYLINK_DEV_CAP_ADAPTIVE_CLOCKING = true) then
    match transport_call t devh (c.set_speed speed) with
    | (.ok _, devh1) => (JAYLINK_OK, devh1)
    | (.error e, devh1) => (transport_error_code e, devh1)
  else
    (JAYLINK_ERR_ARG, devh)

/-- Modelled from the spec: the body of `jaylink_select_interface`, which the
header only declares.  The index is validated against `JAYLINK_TIF_MAX` before
any I/O; an interface the device did not report as available is an invalid
argument as well. -/
def jaylink_select_interface (c : CommandCodec) (t : Transport)
    (devh : jaylink_device_handle) (interface : Nat) : Int × jaylink_device_handle :=
  if interface > JAYLINK_TIF_MAX then
    (JAYLINK_ERR_ARG, devh)
  else if (devh.interfaces / 2 ^ interface) % 2 = 0 then
    (JAYLINK_ERR_ARG, devh)
  else
    match transport_call t devh (c.select_tif interface) with
    | (.ok _, devh1) => (JAYLINK_OK, { devh1 with selected := some interface })
    | (.error e, devh1) => (transport_error_code e, devh1)

/-! ## Bit-serial codec -/

/-- Modelled from the spec: the value of one packed byte, least significant bit
first (the first bit of the chunk is the low bit). -/
def pack_byte : List Bool → Nat
  | [] => 0
  | b :: bs => b.toNat + 2 * pack_byte bs

/-- Modelled from the spec: packing of a logical bit sequence by the JTAG/SWD
codec behind `jaylink_jtag_io` / `jaylink_swd_io` (declared only in the header):
`ceil(length / 8)` bytes, bit `i` of the sequence in bit `i % 8` of byte
`i / 8`; the unused high bits of the last byte are padded with zero. -/
def pack_bits (bits : List Bool) : List Nat :=
  (List.range ((bits.length + 7) / 8)).map
    (fun j => pack_byte ((bits.drop (8 * j)).take 8))

/-- Modelled from the spec: unpacking of a returned buffer into a logical bit
sequence truncated to exactly `length` bits; bits past `length` in the final
partial byte are discarded. -/
def unpack_bits (buf : List Nat) (length : Nat) : List Bool :=
  (List.range length).map (fun i => (buf.getD (i / 8) 0 / 2 ^ (i % 8)) % 2 == 1)

/-! ## Sample inputs -/

/-- A sample command codec: one opcode byte followed by the parameter bytes. -/
def sample_codec : CommandCodec :=
  ⟨fun speed => ([0x05, speed % 256, speed / 256], 0), fun tif => ([0xc7, tif], 4)⟩

/-- A sample transport that answers every request with as many zero bytes as
were asked for. -/
def sample_transport : Transport :=
  ⟨fun _ n => .ok (List.replicate n 0)⟩

/-- A sample session: no capability set, every interface index below 8 reported
as available, nothing selected, no transport call issued yet. -/
def sample_handle : jaylink_device_handle :=
  ⟨[0, 0, 0, 0], 0xff, none, 0⟩

/-! ## Auxiliary lemmas -/

theorem transport_error_code_ne_arg (e : TransportError) :
    transport_error_code e ≠ JAYLINK_ERR_ARG := by
  cases e <;> decide

theorem jaylink_has_cap_read_in_range (caps : List Nat) (cap : Nat)
    (h : cap < 8 * caps.length) :
    jaylink_has_cap_read caps cap =
      some ((caps.getD (cap / 8) 0 / 2 ^ (cap % 8)) % 2 == 1) := by
  have hq : cap / 8 < caps.length := by omega
  simp [jaylink_has_cap_read, h, List.getD_eq_getElem?_getD, List.getElem?_eq_getElem hq]

theorem jaylink_has_cap_read_out_of_range (caps : List Nat) (cap : Nat)
    (h : 8 * caps.length ≤ cap) : jaylink_has_cap_read caps cap = some false := by
  have hn : ¬ cap < 8 * caps.length := by omega
  simp [jaylink_has_cap_read, hn]

theorem jaylink_set_speed_of_valid (c : CommandCodec) (t : Transport)
    (devh : jaylink_device_handle) (speed : Nat)
    (h : (1 ≤ speed ∧ speed ≤ 0xfffe) ∨
      (speed = JAYLINK_SPEED_ADAPTIVE_CLOCKING ∧
        jaylink_has_cap devh.caps JAYLINK_DEV_CAP_ADAPTIVE_CLOCKING = true)) :
    (jaylink_set_speed c t devh speed).1 ≠ JAYLINK_ERR_ARG ∧
    (jaylink_set_speed c t devh speed).2.calls = devh.calls + 1 := by
  unfold jaylink_set_speed
  rw [if_pos h]
  unfold transport_call
  cases t.transfer (c.set_speed speed).1 (c.set_speed speed).2 with
  | ok r =>
    constructor
    · show JAYLINK_OK ≠ JAYLINK_ERR_ARG
      decide
    · rfl
  | error e =>
    constructor
    · exact transport_error_code_ne_arg e
    · rfl

theorem jaylink_set_speed_of_invalid (c : CommandCodec) (t : Transport)
    (devh : jaylink_device_handle) (speed : Nat)
    (h : ¬ ((1 ≤ speed ∧ speed ≤ 0xfffe) ∨
      (speed = JAYLINK_SPEED_ADAPTIVE_CLOCKING ∧
        jaylink_has_cap devh.caps JAYLINK_DEV_CAP_ADAPTIVE_CLOCKING = true))) :
    jaylink_set_speed c t devh speed = (JAYLINK_ERR_ARG, devh) := by
  unfold jaylink_set_speed
  rw [if_neg h]

theorem jaylink_select_interface_of_available (c : CommandCodec) (t : Transport)
    (devh : jaylink_device_handle) (interface : Nat) (h1 : interface ≤ JAYLINK_TIF_MAX)
    (h2 : (devh.interfaces / 2 ^ interface) % 2 ≠ 0) :
    (jaylink_select_interface c t devh interface).2.calls = devh.calls + 1 := by
  unfold jaylink_select_interface
  rw [if_neg (by omega), if_neg h2]
  unfold transport_call
  cases t.transfer (c.select_tif interface).1 (c.select_tif interface).2 <;> rfl

theorem pack_byte_bit (l : List Bool) (k : Nat) :
    ((pack_byte l / 2 ^ k) % 2 == 1) = l.getD k false := by
  induction l generalizing k with
  | nil => simp [pack_byte]
  | cons b bs ih =>
    cases k with
    | zero => cases b <;> simp [pack_byte, Nat.add_mul_mod_self_left]
    | succ k =>
      have h : (b.toNat + 2 * pack_byte bs) / 2 ^ (k + 1) = pack_byte bs / 2 ^ k := by
        rw [pow_succ, mul_comm (2 ^ k) 2, ← Nat.div_div_eq_div_mul]
        congr 1
        have hb : b.toNat ≤ 1 := by cases b <;> decide
        omega
      simp only [pack_byte, h, List.getD_cons_succ]
      exact ih k

theorem pack_byte_lt (l : List Bool) : pack_byte l < 2 ^ l.length := by
  induction l with
  | nil => simp [pack_byte]
  | cons b bs ih =>
    simp only [pack_byte, List.length_cons, pow_succ]
    have hb : b.toNat ≤ 1 := by cases b <;> decide
    omega

theorem pack_bits_getD (bits : List Bool) (j : Nat) (h : j < (bits.length + 7) / 8) :
    (pack_bits bits).getD j 0 = pack_byte ((bits.drop (8 * j)).take 8) := by
  simp [pack_bits, List.getD_eq_getElem?_getD, List.getElem?_map, List.getElem?_range h]

theorem unpack_bits_length (buf : List Nat) (length : Nat) :
    (unpack_bits buf length).length = length := by
  simp [unpack_bits]

theorem unpack_pack_bits (bits : List Bool) :
    unpack_bits (pack_bits bits) bits.length = bits := by
  apply List.ext_getElem
  · simp [unpack_bits]
  · intro i h1 h2
    have hm : i % 8 < 8 := Nat.mod_lt _ (by decide)
    simp only [unpack_bits, List.getElem_map, List.getElem_range,
      pack_bits_getD bits (i / 8) (by omega), pack_byte_bit]
    rw [List.getD_eq_getElem?_getD, List.getElem?_take_of_lt hm, List.getElem?_drop,
      Nat.div_add_mod, List.getElem?_eq_getElem h2]
    rfl

/-! ## Constants of the header -/

/-- C8: the error kinds are exactly four (generic, allocation, invalid
argument, timeout); their codes are pairwise distinct, all strictly negative,
and so all different from the success code `JAYLINK_OK = 0`. -/
theorem jaylink_error_kinds_distinct_negative :
    jaylink_error = JAYLINK_OK :: jaylink_error_kinds ∧
    jaylink_error_kinds =
      [JAYLINK_ERR, JAYLINK_ERR_MALLOC, JAYLINK_ERR_ARG, JAYLINK_ERR_TIMEOUT] ∧
    jaylink_error_kinds.length = 4 ∧
    jaylink_error_kinds.Nodup ∧
    JAYLINK_OK = 0 ∧
    (∀ e ∈ jaylink_error_kinds, e < 0 ∧ e ≠ JAYLINK_OK) := by
  refine ⟨rfl, rfl, rfl, by decide, rfl, ?_⟩
  intro e he
  simp only [jaylink_error_kinds, List.mem_cons, List.mem_singleton, List.mem_nil_iff,
    or_false] at he
  rcases he with h | h | h | h <;> subst h <;> decide

/-- C9: the buffer-size constants match the data model: the base capability
mask is 4 bytes (32 bits), the extended mask 32 bytes (256 bits), and the raw
configuration block exactly 256 bytes. -/
theorem buffer_sizes :
    JAYLINK_DEV_CAPS_SIZE = 4 ∧ 8 * JAYLINK_DEV_CAPS_SIZE = 32 ∧
    JAYLINK_DEV_EXT_CAPS_SIZE = 32 ∧ 8 * JAYLINK_DEV_EXT_CAPS_SIZE = 256 ∧
    JAYLINK_DEV_CONFIG_SIZE = 256 := by
  decide

/-- C5: the target interfaces are exactly the values 0..4 (JTAG, SWD, BDM3,
FINE, 2-wire JTAG), contiguous and pairwise distinct; `JAYLINK_TIF_MAX` is 4,
the greatest of them; an index is an interface exactly when it is at most
`JAYLINK_TIF_MAX`, so 5 is the least invalid index. -/
theorem target_interfaces_are_zero_to_max :
    JAYLINK_TIF_JTAG = 0 ∧ JAYLINK_TIF_SWD = 1 ∧ JAYLINK_TIF_BDM3 = 2 ∧
    JAYLINK_TIF_FINE = 3 ∧ JAYLINK_TIF_2W_JTAG_PIC32 = 4 ∧
    jaylink_target_interface = List.range 5 ∧
    jaylink_target_interface.Nodup ∧
    __JAYLINK_TIF_MAX = 5 ∧
    JAYLINK_TIF_MAX = 4 ∧
    JAYLINK_TIF_MAX ∈ jaylink_target_interface ∧
    (∀ i, i ∈ jaylink_target_interface ↔ i ≤ JAYLINK_TIF_MAX) ∧
    (∀ i, ¬ i ≤ JAYLINK_TIF_MAX ↔ 5 ≤ i) := by
  refine ⟨rfl, rfl, rfl, rfl, rfl, by decide, by decide, rfl, rfl, by decide, ?_, ?_⟩
  · intro i
    have hl : jaylink_target_interface = List.range 5 := by decide
    have hm : JAYLINK_TIF_MAX = 4 := rfl
    rw [hl, hm, List.mem_range]
    omega
  · intro i
    have hm : JAYLINK_TIF_MAX = 4 := rfl
    rw [hm]
    omega

/-- C6: every capability identifier of `enum jaylink_device_capability` is
below `8 * JAYLINK_DEV_CAPS_SIZE = 32`, so it addresses a bit of the 4-byte base
mask (its byte index `id / 8` is below `JAYLINK_DEV_CAPS_SIZE`);
`JAYLINK_DEV_CAP_GET_EXT_CAPS = 31` is the highest bit. -/
theorem capability_ids_fit_base_mask (cap : Nat) (h : cap ∈ jaylink_device_capability) :
    cap < 8 * JAYLINK_DEV_CAPS_SIZE ∧ 8 * JAYLINK_DEV_CAPS_SIZE = 32 ∧
    cap / 8 < JAYLINK_DEV_CAPS_SIZE ∧
    cap ≤ JAYLINK_DEV_CAP_GET_EXT_CAPS ∧
    JAYLINK_DEV_CAP_GET_EXT_CAPS = 31 ∧
    JAYLINK_DEV_CAP_GET_EXT_CAPS = 8 * JAYLINK_DEV_CAPS_SIZE - 1 := by
  simp only [jaylink_device_capability, List.mem_cons, List.mem_singleton, List.mem_nil_iff,
    or_false] at h
  rcases h with h | h | h | h | h | h | h | h <;> subst h <;> decide

/-- Witness of C6 at the highest identifier, `JAYLINK_DEV_CAP_GET_EXT_CAPS`. -/
theorem capability_ids_fit_base_mask_witness :
    JAYLINK_DEV_CAP_GET_EXT_CAPS ∈ jaylink_device_capability ∧
    JAYLINK_DEV_CAP_GET_EXT_CAPS < 8 * JAYLINK_DEV_CAPS_SIZE ∧
    JAYLINK_DEV_CAP_GET_EXT_CAPS / 8 < JAYLINK_DEV_CAPS_SIZE :=
  have h := capability_ids_fit_base_mask JAYLINK_DEV_CAP_GET_EXT_CAPS (by decide)
  ⟨by decide, h.1, h.2.2.1⟩

/-- C7: the capability identifiers are pairwise distinct, so two different
capabilities never test the same bit (the same byte index and bit position),
and they are sparse: they are no contiguous range of integers (2 lies between
the identifiers 1 and 3 and is none of them). -/
theorem capability_ids_distinct_sparse :
    jaylink_device_capability = [1, 3, 4, 5, 11, 13, 17, 31] ∧
    jaylink_device_capability.Nodup ∧
    (jaylink_device_capability.map (fun cap => (cap / 8, cap % 8))).Nodup ∧
    (1 ∈ jaylink_device_capability ∧ 2 ∉ jaylink_device_capability ∧
      3 ∈ jaylink_device_capability) ∧
    ¬ ∃ lo hi, ∀ i, i ∈ jaylink_device_capability ↔ (lo ≤ i ∧ i < hi) := by
  refine ⟨rfl, by decide, by decide, by decide, ?_⟩
  rintro ⟨lo, hi, h⟩
  have h1 := (h 1).1 (by decide)
  have h3 := (h 3).1 (by decide)
  have h2 : 2 ∈ jaylink_device_capability := (h 2).2 ⟨by omega, by omega⟩
  exact absurd h2 (by decide)

/-- C10: the adaptive-clocking sentinel is `0xffff`, the largest value of the
16-bit speed parameter, outside the fixed-speed range `[1, 0xfffe]`; every
`uint16_t` speed is exactly one of 0, a fixed speed, or the sentinel, and 0 is
the only speed that is neither a fixed speed nor the sentinel. -/
theorem speed_sentinel_partition (speed : Nat) (h : speed < UINT16_RANGE) :
    JAYLINK_SPEED_ADAPTIVE_CLOCKING = 0xffff ∧
    JAYLINK_SPEED_ADAPTIVE_CLOCKING = UINT16_RANGE - 1 ∧
    speed ≤ JAYLINK_SPEED_ADAPTIVE_CLOCKING ∧
    ¬ (1 ≤ JAYLINK_SPEED_ADAPTIVE_CLOCKING ∧ JAYLINK_SPEED_ADAPTIVE_CLOCKING ≤ 0xfffe) ∧
    (speed = 0 ∨ (1 ≤ speed ∧ speed ≤ 0xfffe) ∨ speed = JAYLINK_SPEED_ADAPTIVE_CLOCKING) ∧
    ¬ (speed = 0 ∧ (1 ≤ speed ∧ speed ≤ 0xfffe)) ∧
    ¬ (speed = 0 ∧ speed = JAYLINK_SPEED_ADAPTIVE_CLOCKING) ∧
    ¬ ((1 ≤ speed ∧ speed ≤ 0xfffe) ∧ speed = JAYLINK_SPEED_ADAPTIVE_CLOCKING) ∧
    ((¬ (1 ≤ speed ∧ speed ≤ 0xfffe) ∧ speed ≠ JAYLINK_SPEED_ADAPTIVE_CLOCKING) ↔
      speed = 0) := by
  have hs : JAYLINK_SPEED_ADAPTIVE_CLOCKING = 65535 := rfl
  have hr : UINT16_RANGE = 65536 := rfl
  rw [hs, hr]
  rw [hr] at h
  omega

/-- Witness of C10 at the sentinel speed itself. -/
theorem speed_sentinel_partition_witness :
    0xffff < UINT16_RANGE ∧
    (0xffff = 0 ∨ (1 ≤ 0xffff ∧ 0xffff ≤ 0xfffe) ∨
      0xffff = JAYLINK_SPEED_ADAPTIVE_CLOCKING) :=
  ⟨by decide, (speed_sentinel_partition 0xffff (by decide)).2.2.2.2.1⟩

/-! ## Operations -/

/-- C1: for every capability mask and every capability id at or beyond the
mask's bit width (id >= 32 for a 4-byte base mask, id >= 256 for a 32-byte
extended mask), `jaylink_has_cap` answers false and reads no byte outside the
mask. -/
theorem jaylink_has_cap_beyond_width (caps : List Nat) (cap : Nat)
    (h : (caps.length = JAYLINK_DEV_CAPS_SIZE ∧ 32 ≤ cap) ∨
      (caps.length = JAYLINK_DEV_EXT_CAPS_SIZE ∧ 256 ≤ cap) ∨
      8 * caps.length ≤ cap) :
    jaylink_has_cap caps cap = false ∧
    jaylink_has_cap_read caps cap = some false ∧
    jaylink_has_cap_read caps cap ≠ none := by
  have hw : 8 * caps.length ≤ cap := by
    have h4 : JAYLINK_DEV_CAPS_SIZE = 4 := rfl
    have h32 : JAYLINK_DEV_EXT_CAPS_SIZE = 32 := rfl
    rw [h4, h32] at h
    omega
  have hr := jaylink_has_cap_read_out_of_range caps cap hw
  refine ⟨?_, hr, ?_⟩
  · simp [jaylink_has_cap, hr]
  · simp [hr]

/-- Witness of C1: a base mask with every bit set, asked for id 32. -/
theorem jaylink_has_cap_beyond_width_witness :
    [0xff, 0xff, 0xff, 0xff].length = JAYLINK_DEV_CAPS_SIZE ∧ 32 ≤ 32 ∧
    jaylink_has_cap [0xff, 0xff, 0xff, 0xff] 32 = false ∧
    jaylink_has_cap_read [0xff, 0xff, 0xff, 0xff] 32 = some false :=
  have h := jaylink_has_cap_beyond_width [0xff, 0xff, 0xff, 0xff] 32
    (Or.inl ⟨by decide, by decide⟩)
  ⟨by decide, by decide, h.1, h.2.1⟩

/-- C2: for every interface index greater than `JAYLINK_TIF_MAX`, in
particular index 5, `jaylink_select_interface` fails with `JAYLINK_ERR_ARG` and
issues no transport call (the session, with its call counter, is unchanged). -/
theorem jaylink_select_interface_beyond_max (c : CommandCodec) (t : Transport)
    (devh : jaylink_device_handle) (interface : Nat) (h : interface > JAYLINK_TIF_MAX) :
    (jaylink_select_interface c t devh interface).1 = JAYLINK_ERR_ARG ∧
    (jaylink_select_interface c t devh interface).2.calls = devh.calls ∧
    (jaylink_select_interface c t devh interface).2 = devh ∧
    jaylink_select_interface c t devh 5 = (JAYLINK_ERR_ARG, devh) := by
  have h5 : (5 : Nat) > JAYLINK_TIF_MAX := by decide
  unfold jaylink_select_interface
  rw [if_pos h, if_pos h5]
  exact ⟨rfl, rfl, rfl, rfl⟩

/-- Witness of C2: index 5 on a session whose device reports index 5 as
available, so the rejection comes from the range check. -/
theorem jaylink_select_interface_beyond_max_witness :
    5 > JAYLINK_TIF_MAX ∧
    (jaylink_select_interface sample_codec sample_transport sample_handle 5).1
      = JAYLINK_ERR_ARG ∧
    (jaylink_select_interface sample_codec sample_transport sample_handle 5).2.calls
      = sample_handle.calls :=
  have h := jaylink_select_interface_beyond_max sample_codec sample_transport sample_handle 5
    (by decide)
  ⟨by decide, h.1, h.2.1⟩

/-- C3: `jaylink_set_speed` rejects speed 0 with `JAYLINK_ERR_ARG`, accepts 1
and 0xfffe (the command reaches the transport and the result is not the
invalid-argument error), and accepts 0xffff exactly when the session's
capabilities have `JAYLINK_DEV_CAP_ADAPTIVE_CLOCKING` set; without it 0xffff is
rejected with `JAYLINK_ERR_ARG` and no transport call. -/
theorem jaylink_set_speed_validation (c : CommandCodec) (t : Transport)
    (devh : jaylink_device_handle) :
    jaylink_set_speed c t devh 0 = (JAYLINK_ERR_ARG, devh) ∧
    ((jaylink_set_speed c t devh 1).1 ≠ JAYLINK_ERR_ARG ∧
      (jaylink_set_speed c t devh 1).2.calls = devh.calls + 1) ∧
    ((jaylink_set_speed c t devh 0xfffe).1 ≠ JAYLINK_ERR_ARG ∧
      (jaylink_set_speed c t devh 0xfffe).2.calls = devh.calls + 1) ∧
    (((jaylink_set_speed c t devh 0xffff).1 ≠ JAYLINK_ERR_ARG ∧
      (jaylink_set_speed c t devh 0xffff).2.calls = devh.calls + 1) ↔
        jaylink_has_cap devh.caps JAYLINK_DEV_CAP_ADAPTIVE_CLOCKING = true) ∧
    (jaylink_set_speed c t devh 0xffff = (JAYLINK_ERR_ARG, devh) ↔
        jaylink_has_cap devh.caps JAYLINK_DEV_CAP_ADAPTIVE_CLOCKING = false) := by
  have hs : JAYLINK_SPEED_ADAPTIVE_CLOCKING = 0xffff := rfl
  refine ⟨?_, ?_, ?_, ?_, ?_⟩
  · exact jaylink_set_speed_of_invalid c t devh 0 (by rw [hs]; omega)
  · exact jaylink_set_speed_of_valid c t devh 1 (Or.inl (by omega))
  · exact jaylink_set_speed_of_valid c t devh 0xfffe (Or.inl (by omega))
  · constructor
    · intro hacc
      by_contra hcap
      have hrej := jaylink_set_speed_of_invalid c t devh 0xffff
        (by rintro (hr | hr); omega; exact hcap hr.2)
      rw [hrej] at hacc
      exact hacc.1 rfl
    · intro hcap
      exact jaylink_set_speed_of_valid c t devh 0xffff (Or.inr ⟨hs.symm, hcap⟩)
  · constructor
    · intro hrej
      by_contra hcap
      have hcap1 : jaylink_has_cap devh.caps JAYLINK_DEV_CAP_ADAPTIVE_CLOCKING = true := by
        simpa using hcap
      have hacc := jaylink_set_speed_of_valid c t devh 0xffff (Or.inr ⟨hs.symm, hcap1⟩)
      rw [hrej] at hacc
      exact hacc.1 rfl
    · intro hcap
      exact jaylink_set_speed_of_invalid c t devh 0xffff
        (by rintro (hr | hr); omega; rw [hcap] at hr; exact absurd hr.2 (by decide))

/-- C4: for every bit sequence (so for every length in [0, 4096]), packing it
least-significant-bit first into `ceil(L / 8)` bytes and unpacking the buffer to
`L` bits gives the original sequence back; the result has exactly `L` bits and
does not depend on the padding bits of the last byte. -/
theorem pack_unpack_roundtrip (bits : List Bool) :
    unpack_bits (pack_bits bits) bits.length = bits ∧
    (pack_bits bits).length = (bits.length + 7) / 8 ∧
    (∀ byte ∈ pack_bits bits, byte < 256) ∧
    (unpack_bits (pack_bits bits) bits.length).length = bits.length ∧
    (∀ buf : List Nat,
      (∀ i, i < bits.length →
        ((buf.getD (i / 8) 0 / 2 ^ (i % 8)) % 2 == 1) =
          (((pack_bits bits).getD (i / 8) 0 / 2 ^ (i % 8)) % 2 == 1)) →
      unpack_bits buf bits.length = bits) := by
  refine ⟨unpack_pack_bits bits, by simp [pack_bits], ?_, unpack_bits_length _ _, ?_⟩
  · intro byte hb
    simp only [pack_bits, List.mem_map, List.mem_range] at hb
    obtain ⟨j, _, rfl⟩ := hb
    have hlt := pack_byte_lt ((bits.drop (8 * j)).take 8)
    have hlen : ((bits.drop (8 * j)).take 8).length ≤ 8 := by
      rw [List.length_take]; omega
    calc pack_byte ((bits.drop (8 * j)).take 8)
        < 2 ^ ((bits.drop (8 * j)).take 8).length := hlt
      _ ≤ 2 ^ 8 := Nat.pow_le_pow_right (by decide) hlen
      _ = 256 := by norm_num
  · intro buf hbuf
    have hsame : unpack_bits buf bits.length
        = unpack_bits (pack_bits bits) bits.length := by
      apply List.ext_getElem
      · simp [unpack_bits]
      · intro i h1 h2
        have hi : i < bits.length := by simpa [unpack_bits] using h1
        simp only [unpack_bits, List.getElem_map, List.getElem_range]
        exact hbuf i hi
    rw [hsame, unpack_pack_bits bits]

end Jaylink
